import Mathlib

/-!
Verification of the TerminalChess terminal client (client_local.py).

The client is modelled as pure Lean functions over `List Char` strings:
the move-notation normalizer `parse_algebraic`, the board renderer
`render_board`, the protocol reader `read_loop` (a function over the list
of inbound stream lines), and the per-line handler of the interactive
command loop `handle_line`.  Python strings are embedded as `List Char`;
the ASCII behaviour of str.upper, str.lower, str.strip, str.split and
str.islower is modelled (all protocol-relevant characters are ASCII).
-/

namespace Chess

/-- ASCII model of a whitespace character, as used by str.strip and
str.split with no arguments. -/
def isPySpace (c : Char) : Bool := c.isWhitespace

/-- Model of str.strip with no argument: drop whitespace from both ends. -/
def pyStrip (l : List Char) : List Char :=
  ((l.dropWhile isPySpace).reverse.dropWhile isPySpace).reverse

/-- One step of the fold behind `pySplit`: build (current word, finished
words) scanning from the right. -/
def pySplitStep (c : Char) (acc : List Char × List (List Char)) :
    List Char × List (List Char) :=
  if isPySpace c then
    ([], if acc.1 = [] then acc.2 else acc.1 :: acc.2)
  else
    (c :: acc.1, acc.2)

/-- Model of str.split with no argument: split on runs of whitespace,
dropping empty words. -/
def pySplit (l : List Char) : List (List Char) :=
  let p := l.foldr pySplitStep ([], [])
  if p.1 = [] then p.2 else p.1 :: p.2

/-- Convert a Lean string literal to the `List Char` embedding. -/
def toChars (s : String) : List Char := s.data

/-- Model of str.upper on ASCII data. -/
def pyUpper (l : List Char) : List Char := l.map Char.toUpper

/-- Model of str.lower on ASCII data. -/
def pyLower (l : List Char) : List Char := l.map Char.toLower

/-- Membership test for the Python expression `c in 'abcdefgh'`. -/
def isFile (c : Char) : Bool :=
  c == 'a' || c == 'b' || c == 'c' || c == 'd' ||
  c == 'e' || c == 'f' || c == 'g' || c == 'h'

/-- Membership test for the Python expression `c in '12345678'`. -/
def isRank (c : Char) : Bool :=
  c == '1' || c == '2' || c == '3' || c == '4' ||
  c == '5' || c == '6' || c == '7' || c == '8'

/-- Test of `move_str[0].upper() in piece_chars` (keys K Q R B N). -/
def isPieceLetter (c : Char) : Bool :=
  c.toUpper == 'K' || c.toUpper == 'Q' || c.toUpper == 'R' ||
  c.toUpper == 'B' || c.toUpper == 'N'

/-- Model of `s.replace(a, '')` for a single character `a`. -/
def stripChar (a : Char) (l : List Char) : List Char :=
  l.filter (fun c => !(c == a))

/-- Model of `s.replace(ab, '')` for a two-character pattern `a b`:
left-to-right, non-overlapping removal. -/
def stripPair (a b : Char) : List Char → List Char
  | [] => []
  | [c] => [c]
  | c :: d :: rest =>
    if c == a && d == b then stripPair a b rest
    else c :: stripPair a b (d :: rest)

/-- The chained replace calls of parse_algebraic line 38: remove capture,
check, mate, and promotion marks, in source order. -/
def stripSymbols (l : List Char) : List Char :=
  stripPair '=' 'N' (stripPair '=' 'B' (stripPair '=' 'R' (stripPair '=' 'Q'
    (stripChar '#' (stripChar '+' (stripChar 'x' l))))))

/-- The coordinate-form test of parse_algebraic line 34: length at least 4
and the first three characters are file, rank, file. -/
def coordForm : List Char → Bool
  | a :: b :: c :: _ :: _ => isFile a && isRank b && isFile c
  | _ => false

/-- Start-rank synthesis of parse_algebraic line 44. -/
def startRank (r : Char) : Char :=
  if r == '3' || r == '4' then '2'
  else if r == '5' || r == '6' then '7'
  else '2'

/-- The piece-move branch of parse_algebraic lines 49-64.  The argument is
the (symbol-stripped) move text; its head is the candidate piece letter. -/
def pieceMove (s : List Char) : Option (List Char) :=
  match s with
  | [] => none
  | c :: rest =>
    if isPieceLetter c then
      match rest.reverse with
      | rl :: rf :: _ =>
        if isFile rf && isRank rl then
          match rest.take (rest.length - 2) with
          | [df, dr] =>
            if isFile df && isRank dr then some [df, dr, rf, rl] else none
          | _ => none
        else none
      | _ => none
    else none

/-- Result of a call to parse_algebraic.  `crash` is the uncaught
IndexError raised by `move_str[0]` when symbol stripping leaves the text
empty; `parsed m` is a normal return of `m` (None or a move string). -/
inductive ParseOutcome where
  | crash
  | parsed (m : Option (List Char))
deriving DecidableEq

/-- Shallow embedding of parse_algebraic (client_local.py lines 26-66). -/
def parse_algebraic (input : List Char) : ParseOutcome :=
  let s0 := pyStrip input
  if s0 = [] then .parsed none
  else if coordForm s0 then .parsed (some s0)
  else
    match stripSymbols s0 with
    | [] => .crash
    | [f, r] =>
      if isFile f && isRank r then .parsed (some [f, startRank r, f, r])
      else .parsed (pieceMove [f, r])
    | l => .parsed (pieceMove l)

example : parse_algebraic (toChars "e2e4") = .parsed (some (toChars "e2e4")) := by decide
example : parse_algebraic (toChars "e4") = .parsed (some (toChars "e2e4")) := by decide
example : parse_algebraic (toChars "e5") = .parsed (some (toChars "e7e5")) := by decide
example : parse_algebraic (toChars "d4") = .parsed (some (toChars "d2d4")) := by decide
example : parse_algebraic (toChars "Nb1d7") = .parsed (some (toChars "b1d7")) := by decide
example : parse_algebraic (toChars "Nc3") = .parsed none := by decide
example : parse_algebraic (toChars "Nbc3") = .parsed none := by decide
example : parse_algebraic (toChars "Qxe5+") = .parsed none := by decide
example : parse_algebraic (toChars "b1c3") = .parsed (some (toChars "b1c3")) := by decide
example : parse_algebraic (toChars "x") = .crash := by decide
example : parse_algebraic (toChars "zzz") = .parsed none := by decide

/-! Board renderer (client_local.py lines 68-124).  The colorama escape
strings are the concrete ANSI sequences the library emits. -/

/-- The escape character heading every ANSI color-control sequence. -/
def escChar : Char := '\x1b'

/-- colorama Back.BLUE. -/
def backBLUE : List Char := toChars "\x1b[44m"

/-- colorama Back.WHITE. -/
def backWHITE : List Char := toChars "\x1b[47m"

/-- colorama Fore.YELLOW. -/
def foreYELLOW : List Char := toChars "\x1b[33m"

/-- colorama Fore.BLACK. -/
def foreBLACK : List Char := toChars "\x1b[30m"

/-- colorama Fore.GREEN. -/
def foreGREEN : List Char := toChars "\x1b[32m"

/-- colorama Style.RESET_ALL. -/
def styleRESET : List Char := toChars "\x1b[0m"

/-- UNICODE_MAP (client_local.py lines 21-24): lookup of a piece token.
Only single-character tokens are keys of the dict. -/
def unicodeLookup (piece : List Char) : Option (List Char) :=
  match piece with
  | [c] =>
    if c = 'P' then some (toChars "♙") else if c = 'R' then some (toChars "♖")
    else if c = 'N' then some (toChars "♘") else if c = 'B' then some (toChars "♗")
    else if c = 'Q' then some (toChars "♕") else if c = 'K' then some (toChars "♔")
    else if c = 'p' then some (toChars "♟") else if c = 'r' then some (toChars "♜")
    else if c = 'n' then some (toChars "♞") else if c = 'b' then some (toChars "♝")
    else if c = 'q' then some (toChars "♛") else if c = 'k' then some (toChars "♚")
    else none
  | _ => none

/-- ASCII model of str.islower: at least one cased character and no
uppercase character. -/
def pyIsLower (s : List Char) : Bool :=
  s.any (fun c => c.isAlpha) && s.all (fun c => !(c.isUpper))

/-- Value of a nonempty all-digit token, used by `pyInt`. -/
def digitsToNat (l : List Char) : Option Nat :=
  if l ≠ [] ∧ l.all (·.isDigit) then
    some (l.foldl (fun a c => a * 10 + (c.toNat - 48)) 0)
  else none

/-- Model of `int(rank)` guarded by try/except ValueError -> 0
(client_local.py lines 99-102): optional sign then digits, else 0. -/
def pyInt (s : List Char) : Int :=
  match s with
  | '-' :: rest =>
    match digitsToNat rest with
    | some n => -(n : Int)
    | none => 0
  | '+' :: rest =>
    match digitsToNat rest with
    | some n => (n : Int)
    | none => 0
  | _ =>
    match digitsToNat s with
    | some n => (n : Int)
    | none => 0

/-- The square-color computation of render_board lines 97-106: dark when
(actual_file + rank_number) is odd, with actual_file equal to
7 - file_index when flipped. -/
def square_dark (flip : Bool) (file_index : Nat) (rank_num : Int) : Bool :=
  let actual_file : Int := if flip then 7 - (file_index : Int) else (file_index : Int)
  (actual_file + rank_num) % 2 == 1

/-- One cell of a rendered rank row (render_board lines 96-115). -/
def render_cell (use_unicode colorize flip : Bool) (rank_num : Int)
    (file_index : Nat) (piece : List Char) : List Char :=
  let dark := square_dark flip file_index rank_num
  let cell_bg := if dark then backBLUE else if colorize then backWHITE else []
  let fg :=
    if pyIsLower piece then foreYELLOW
    else if piece ≠ ['.'] then foreBLACK
    else foreGREEN
  let symbol :=
    match (if use_unicode then unicodeLookup piece else none) with
    | some g => g
    | none => if piece = ['.'] then [' '] else piece
  if colorize then
    cell_bg ++ fg ++ [' '] ++ symbol ++ [' '] ++ styleRESET
  else
    [' '] ++ symbol ++ [' ']

/-- One rank row of the rendered board (render_board lines 83-116): a row
whose whitespace split has fewer than 9 tokens is passed through raw. -/
def render_row (use_unicode colorize flip : Bool) (raw : List Char) : List Char :=
  let parts := pySplit raw
  if parts.length < 9 then raw
  else
    match parts with
    | [] => raw
    | rank :: pieces0 =>
      let pieces := if flip then pieces0.reverse else pieces0
      let rank_num := pyInt rank
      rank ++ [' '] ++
        (pieces.enum.map
          (fun ip => render_cell use_unicode colorize flip rank_num ip.1 ip.2)).flatten

/-- The default file-label line of render_board line 77. -/
def defaultLabels : List Char := toChars "  a b c d e f g h"

/-- The reversed file-label line of render_board line 120. -/
def flippedLabels : List Char := toChars "  h g f e d c b a"

/-- The board rows of the snapshot (render_board lines 76 and 80-81): all
lines but the last when exactly 9 lines were received, reversed when
flipped. -/
def boardRowsOf (ascii_lines : List (List Char)) (flip : Bool) : List (List Char) :=
  let rows := if ascii_lines.length = 9 then ascii_lines.dropLast else ascii_lines
  if flip then rows.reverse else rows

/-- The final label line of the rendered board (render_board lines 118-122). -/
def labelOf (ascii_lines : List (List Char)) (flip : Bool) : List Char :=
  if flip then flippedLabels
  else
    let file_labels :=
      if ascii_lines.length = 9 then ascii_lines.getLastD [] else defaultLabels
    if pyStrip file_labels ≠ [] then file_labels else defaultLabels

/-- The list out_lines built by render_board. -/
def render_board_lines (ascii_lines : List (List Char))
    (use_unicode colorize flip : Bool) : List (List Char) :=
  (boardRowsOf ascii_lines flip).map (render_row use_unicode colorize flip)
    ++ [labelOf ascii_lines flip]

/-- Shallow embedding of render_board (client_local.py lines 68-124). -/
def render_board (ascii_lines : List (List Char))
    (use_unicode colorize flip : Bool) : List Char :=
  List.intercalate ['\n'] (render_board_lines ascii_lines use_unicode colorize flip)

example : '.' ∉ render_board [toChars "1 . . . . . . . ."] false false false := by
  decide

example : escChar ∈ render_board [toChars "1 R . . . . . . ."] true true false := by
  decide

/-! Protocol reader (client_local.py lines 127-197).  The inbound stream
is modelled as the list of its lines, each already stripped of the
trailing newline (readline followed by rstrip of CR and LF); the end of
the list is the end of the stream, where readline returns the empty
string. -/

/-- The shared session state dict created in main line 250.  The dict has
no player_color key until a START line stores one, modelled by `none`. -/
structure ReaderState where
  player_color : Option (List Char)
  ascii_only : Bool
  last_board : Option (List Char)
deriving DecidableEq

/-- The state dict as initialised in main line 250. -/
def initState : ReaderState :=
  { player_color := none, ascii_only := false, last_board := none }

/-- One observable output of the reader thread. -/
inductive Output where
  | connClosed
  | board (flip : Bool) (rendered : List Char)
  | room (key : List Char)
  | queued (txt : List Char)
  | roomExpired (key : List Char)
  | cancelled (key : List Char)
  | started (line : List Char)
  | yourMove
  | opponentMove (txt : List Char)
  | errorMsg (txt : List Char)
  | ended (txt : List Char)
  | plain (line : List Char)
deriving DecidableEq

/-- The literal board-frame marker line. -/
def boardMarker : List Char := toChars "BOARD"

/-- Whether the reader flips the board: `state.get('player_color') == 'BLACK'`
(client_local.py line 150); a missing key compares unequal. -/
def flipOf (st : ReaderState) : Bool :=
  match st.player_color with
  | some c => c == toChars "BLACK"
  | none => false

/-- The text rendered for a board frame (client_local.py lines 152-155):
the raw lines joined by newlines in ascii mode, the colored unicode
rendering otherwise. -/
def frameRender (board_lines : List (List Char)) (st : ReaderState) : List Char :=
  if st.ascii_only then List.intercalate ['\n'] board_lines
  else render_board board_lines true true (flipOf st)

/-- Store the rendered frame into last_board (client_local.py line 156). -/
def storeBoard (board_lines : List (List Char)) (st : ReaderState) : ReaderState :=
  { st with last_board := some (frameRender board_lines st) }

/-- Dispatch of one non-marker line (client_local.py lines 159-193):
recognized single-line events are formatted, a START line with at least
two whitespace-separated parts stores the uppercased player color, any
other line is printed verbatim. -/
def handleEvent (line : List Char) (st : ReaderState) : Output × ReaderState :=
  if (toChars "ROOM ").isPrefixOf line then (.room (line.drop 5), st)
  else if (toChars "QUEUE ").isPrefixOf line then (.queued (line.drop 6), st)
  else if (toChars "ROOM_EXPIRED ").isPrefixOf line then (.roomExpired (line.drop 13), st)
  else if (toChars "CANCELLED ").isPrefixOf line then (.cancelled (line.drop 10), st)
  else if (toChars "START ").isPrefixOf line then
    let parts := pySplit line
    (.started line,
      if 2 ≤ parts.length then
        { st with player_color := some (pyUpper ((parts.get? 1).getD [])) }
      else st)
  else if line = toChars "YOURMOVE" then (.yourMove, st)
  else if (toChars "OPPONENT_MOVE ").isPrefixOf line then (.opponentMove (line.drop 14), st)
  else if (toChars "ERROR ").isPrefixOf line then (.errorMsg (line.drop 6), st)
  else if (toChars "END ").isPrefixOf line then (.ended (line.drop 4), st)
  else (.plain line, st)

/-- Shallow embedding of read_loop (client_local.py lines 127-197) over
the whole inbound stream: the emitted outputs and the final state.  On
the marker line the next nine stream lines (fewer if the stream ends
first, matching the break on empty readline) become the snapshot; end of
stream emits the connection-closed notice and stops. -/
def read_loop (lines : List (List Char)) (st : ReaderState) :
    List Output × ReaderState :=
  match lines with
  | [] => ([Output.connClosed], st)
  | line :: rest =>
    if line = boardMarker then
      let bl := rest.take 9
      let next := read_loop (rest.drop 9) (storeBoard bl st)
      (Output.board (flipOf st) (frameRender bl st) :: next.1, next.2)
    else
      let e := handleEvent line st
      let next := read_loop rest e.2
      (e.1 :: next.1, next.2)
termination_by lines.length
decreasing_by
  all_goals simp [List.length_drop]
  all_goals omega

/-! Interactive command loop, per input line (client_local.py lines
276-319).  The handler receives the stripped, non-empty input line. -/

/-- What the interactive loop does with one input line. -/
inductive UserAction where
  | quit
  | localPrint (board : Option (List Char))
  | send (cmd : List Char) (hint : Bool)
  | pyerror
deriving DecidableEq

/-- The move-likeness test of main line 314: some character of
'abcdefgh12345678' occurs in the lowercased line. -/
def moveLike (line : List Char) : Bool :=
  (pyLower line).any (fun c => isFile c || isRank c)

/-- The crude escape strip of main line 292: remove every ESC character. -/
def stripEscChars (l : List Char) : List Char :=
  l.filter (fun c => !(c == escChar))

/-- The move-sending section of main lines 307-319: already-protocol
commands pass through; otherwise the line is normalized, a parsed move is
sent as MOVE, and an unparseable line is sent unchanged, with a hint shown
when it looks like a move attempt.  `cmd` is the command accumulated so
far (the raw line, or FF for the forfeit alias). -/
def moveSection (line cmd : List Char) (st : ReaderState) : UserAction × ReaderState :=
  let up := pyUpper line
  if (toChars "MOVE ").isPrefixOf up ∨ (toChars "NAME ").isPrefixOf up
      ∨ up = toChars "FF" then
    (.send cmd false, st)
  else
    match parse_algebraic line with
    | .crash => (.pyerror, st)
    | .parsed (some p) => (.send (toChars "MOVE " ++ p) false, st)
    | .parsed none => (.send cmd (moveLike line), st)

/-- Shallow embedding of the per-line dispatch of main lines 283-319 for a
stripped non-empty input line. -/
def handle_line (line : List Char) (st : ReaderState) : UserAction × ReaderState :=
  let lw := pyLower line
  if lw = toChars "quit" ∨ lw = toChars "exit" then (.quit, st)
  else if lw = toChars "ff" ∨ lw = toChars "forfeit" then
    moveSection line (toChars "FF") st
  else if lw = toChars "ascii" then
    (.localPrint (st.last_board.map stripEscChars), { st with ascii_only := true })
  else if lw = toChars "unicode" then
    (.localPrint st.last_board, { st with ascii_only := false })
  else if lw = toChars "redraw" then
    (.localPrint st.last_board, st)
  else moveSection line line st

example :
    handle_line (toChars "zzz") initState =
      (.send (toChars "zzz") false, initState) := by decide

example :
    handle_line (toChars "hello") initState =
      (.send (toChars "hello") true, initState) := by decide

example :
    handle_line (toChars "e4") initState =
      (.send (toChars "MOVE e2e4") false, initState) := by decide

/-! Helper lemmas about the string model. -/

theorem dropWhile_eq_self_of (p : Char → Bool) (l : List Char)
    (h : ∀ c ∈ l, p c = false) : l.dropWhile p = l := by
  cases l with
  | nil => rfl
  | cons c t => simp [List.dropWhile_cons, h c (List.mem_cons_self c t)]

theorem pyStrip_eq_self (l : List Char) (h : ∀ c ∈ l, isPySpace c = false) :
    pyStrip l = l := by
  unfold pyStrip
  rw [dropWhile_eq_self_of _ _ h]
  rw [dropWhile_eq_self_of]
  · exact l.reverse_reverse
  · intro c hc
    exact h c (List.mem_reverse.mp hc)

theorem stripChar_eq_self (a : Char) (l : List Char)
    (h : ∀ c ∈ l, (c == a) = false) : stripChar a l = l := by
  unfold stripChar
  rw [List.filter_eq_self]
  intro c hc
  simp [h c hc]

/-- Whether the two-character pattern `a b` occurs in adjacent positions. -/
def hasPair (a b : Char) : List Char → Bool
  | [] => false
  | [_] => false
  | c :: d :: rest => (c == a && d == b) || hasPair a b (d :: rest)

theorem stripPair_eq_self :
    ∀ (a b : Char) (l : List Char), hasPair a b l = false → stripPair a b l = l
  | _, _, [], _ => rfl
  | _, _, [_], _ => rfl
  | a, b, c :: d :: rest, h => by
    rw [hasPair] at h
    rw [Bool.or_eq_false_iff] at h
    rw [stripPair, if_neg (by simp [h.1])]
    rw [stripPair_eq_self a b (d :: rest) h.2]

theorem countP_stripChar (p : Char → Bool) (a : Char) (ha : p a = false)
    (l : List Char) : (stripChar a l).countP p = l.countP p := by
  induction l with
  | nil => rfl
  | cons c t ih =>
    by_cases hc : c = a
    · subst hc
      simp [stripChar, List.filter_cons, List.countP_cons, ha] at ih ⊢
      exact ih
    · simp [stripChar, List.filter_cons, List.countP_cons, hc] at ih ⊢
      rw [ih]

theorem countP_stripPair (p : Char → Bool) :
    ∀ (a b : Char), p a = false → p b = false →
      ∀ l, (stripPair a b l).countP p = l.countP p
  | _, _, _, _, [] => rfl
  | _, _, _, _, [_] => rfl
  | a, b, ha, hb, c :: d :: rest => by
    rw [stripPair]
    by_cases h : (c == a && d == b) = true
    · rw [if_pos h]
      rw [Bool.and_eq_true] at h
      have hca : c = a := by simpa using h.1
      have hdb : d = b := by simpa using h.2
      rw [countP_stripPair p a b ha hb rest]
      simp [List.countP_cons, hca, hdb, ha, hb]
    · rw [if_neg h]
      simp only [List.countP_cons, countP_stripPair p a b ha hb (d :: rest)]

theorem countP_stripSymbols (p : Char → Bool) (hx : p 'x' = false)
    (hpl : p '+' = false) (hsh : p '#' = false) (heq : p '=' = false)
    (hQ : p 'Q' = false) (hR : p 'R' = false) (hB : p 'B' = false)
    (hN : p 'N' = false) (l : List Char) :
    (stripSymbols l).countP p = l.countP p := by
  unfold stripSymbols
  rw [countP_stripPair p '=' 'N' heq hN, countP_stripPair p '=' 'B' heq hB,
    countP_stripPair p '=' 'R' heq hR, countP_stripPair p '=' 'Q' heq hQ,
    countP_stripChar p '#' hsh, countP_stripChar p '+' hpl,
    countP_stripChar p 'x' hx]

theorem isFile_cases (c : Char) (h : isFile c = true) :
    c = 'a' ∨ c = 'b' ∨ c = 'c' ∨ c = 'd' ∨ c = 'e' ∨ c = 'f' ∨ c = 'g' ∨ c = 'h' := by
  simp [isFile] at h
  tauto

theorem isRank_cases (c : Char) (h : isRank c = true) :
    c = '1' ∨ c = '2' ∨ c = '3' ∨ c = '4' ∨ c = '5' ∨ c = '6' ∨ c = '7' ∨ c = '8' := by
  simp [isRank] at h
  tauto

theorem isFile_facts (c : Char) (h : isFile c = true) :
    isPySpace c = false ∧ (c == 'x') = false ∧ (c == '+') = false ∧
    (c == '#') = false ∧ (c == '=') = false ∧ (c == 'Q') = false ∧
    (c == 'R') = false ∧ (c == 'B') = false ∧ (c == 'N') = false ∧
    isRank c = false := by
  rcases isFile_cases c h with rfl | rfl | rfl | rfl | rfl | rfl | rfl | rfl <;> decide

theorem isRank_facts (c : Char) (h : isRank c = true) :
    isPySpace c = false ∧ (c == 'x') = false ∧ (c == '+') = false ∧
    (c == '#') = false ∧ (c == '=') = false ∧ (c == 'Q') = false ∧
    (c == 'R') = false ∧ (c == 'B') = false ∧ (c == 'N') = false ∧
    isFile c = false := by
  rcases isRank_cases c h with rfl | rfl | rfl | rfl | rfl | rfl | rfl | rfl <;> decide

theorem isPieceLetter_facts (c : Char) (h : isPieceLetter c = true) :
    isPySpace c = false ∧ (c == 'x') = false ∧ (c == '+') = false ∧
    (c == '#') = false ∧ (c == '=') = false := by
  refine ⟨?_, ?_, ?_, ?_, ?_⟩
  · cases hw : isPySpace c with
    | false => rfl
    | true =>
      exfalso
      have hcs : c = ' ' ∨ c = '\t' ∨ c = '\x0d' ∨ c = '\n' := by
        simp [isPySpace, Char.isWhitespace] at hw
        tauto
      rcases hcs with rfl | rfl | rfl | rfl <;> exact absurd h (by decide)
  · cases hx : (c == 'x') with
    | false => rfl
    | true =>
      have : c = 'x' := by simpa using hx
      subst this; exact absurd h (by decide)
  · cases hx : (c == '+') with
    | false => rfl
    | true =>
      have : c = '+' := by simpa using hx
      subst this; exact absurd h (by decide)
  · cases hx : (c == '#') with
    | false => rfl
    | true =>
      have : c = '#' := by simpa using hx
      subst this; exact absurd h (by decide)
  · cases hx : (c == '=') with
    | false => rfl
    | true =>
      have : c = '=' := by simpa using hx
      subst this; exact absurd h (by decide)

/-- A character that is a file letter or a rank digit; such characters
survive symbol stripping. -/
def goodChar (c : Char) : Bool := isFile c || isRank c

theorem countP_stripSymbols_good (l : List Char) :
    (stripSymbols l).countP goodChar = l.countP goodChar := by
  apply countP_stripSymbols <;> decide

theorem coordForm_countP (s : List Char) (h : coordForm s = true) :
    3 ≤ s.countP goodChar := by
  cases s with
  | nil => simp [coordForm] at h
  | cons a t =>
    cases t with
    | nil => simp [coordForm] at h
    | cons b t2 =>
      cases t2 with
      | nil => simp [coordForm] at h
      | cons c t3 =>
        cases t3 with
        | nil => simp [coordForm] at h
        | cons d t4 =>
          simp only [coordForm, Bool.and_eq_true] at h
          simp [List.countP_cons, goodChar, h.1.1, h.1.2, h.2]

/-! Helper lemmas about the reader and the renderer. -/

theorem read_loop_nil (st : ReaderState) :
    read_loop [] st = ([Output.connClosed], st) := by
  simp [read_loop]

theorem read_loop_cons_marker (rest : List (List Char)) (st : ReaderState) :
    read_loop (boardMarker :: rest) st =
      (Output.board (flipOf st) (frameRender (rest.take 9) st) ::
         (read_loop (rest.drop 9) (storeBoard (rest.take 9) st)).1,
       (read_loop (rest.drop 9) (storeBoard (rest.take 9) st)).2) := by
  rw [read_loop]
  simp

theorem read_loop_cons_event (line : List Char) (rest : List (List Char))
    (st : ReaderState) (h : line ≠ boardMarker) :
    read_loop (line :: rest) st =
      ((handleEvent line st).1 :: (read_loop rest (handleEvent line st).2).1,
       (read_loop rest (handleEvent line st).2).2) := by
  rw [read_loop]
  simp [h]

theorem read_loop_frame (l9 rest : List (List Char)) (st : ReaderState)
    (h : l9.length = 9) :
    read_loop (boardMarker :: (l9 ++ rest)) st =
      (Output.board (flipOf st) (frameRender l9 st) ::
         (read_loop rest (storeBoard l9 st)).1,
       (read_loop rest (storeBoard l9 st)).2) := by
  rw [read_loop_cons_marker, List.take_left' h, List.drop_left' h]

theorem read_loop_frame_short (l : List (List Char)) (st : ReaderState)
    (h : l.length < 9) :
    read_loop (boardMarker :: l) st =
      ([Output.board (flipOf st) (frameRender l st), Output.connClosed],
       storeBoard l st) := by
  rw [read_loop_cons_marker, List.take_of_length_le (le_of_lt h),
    List.drop_eq_nil_of_le (le_of_lt h), read_loop_nil]

theorem intercalate_cons_cons (sep a b : List Char) (t : List (List Char)) :
    List.intercalate sep (a :: b :: t) = a ++ sep ++ List.intercalate sep (b :: t) := by
  simp [List.intercalate, List.intersperse]

theorem not_mem_intercalate (c : Char) (sep : List Char) (ls : List (List Char))
    (hsep : c ∉ sep) (h : ∀ l ∈ ls, c ∉ l) : c ∉ List.intercalate sep ls := by
  induction ls with
  | nil => simp [List.intercalate]
  | cons a t ih =>
    cases t with
    | nil =>
      simpa [List.intercalate, List.intersperse] using h a (by simp)
    | cons b t2 =>
      rw [intercalate_cons_cons]
      simp only [List.mem_append, not_or]
      exact ⟨⟨h a (by simp), hsep⟩, ih (fun l hl => h l (by simp [hl]))⟩

theorem mem_intercalate_of_mem (c : Char) (sep : List Char)
    (ls : List (List Char)) (l : List Char) (hl : l ∈ ls) (hc : c ∈ l) :
    c ∈ List.intercalate sep ls := by
  induction ls with
  | nil => simp at hl
  | cons a t ih =>
    cases t with
    | nil =>
      simp at hl
      subst hl
      simpa [List.intercalate, List.intersperse] using hc
    | cons b t2 =>
      rw [intercalate_cons_cons]
      simp only [List.mem_append]
      rcases List.mem_cons.mp hl with rfl | hl2
      · exact Or.inl (Or.inl hc)
      · exact Or.inr (ih hl2)

theorem enum_map_of_const_idx {α β : Type} (g : α → β) (l : List α) :
    l.enum.map (fun ip => g ip.2) = l.map g := by
  have hfg : (fun ip : Nat × α => g ip.2) = g ∘ Prod.snd := rfl
  rw [hfg, ← List.map_map, List.enum_map_snd]

theorem dropWhile_eq_self_of_head (p : Char → Bool) (c : Char) (t : List Char)
    (h : p c = false) : (c :: t).dropWhile p = c :: t := by
  simp [List.dropWhile_cons, h]

theorem stripSymbols_eq_self (l : List Char)
    (hx : ∀ c ∈ l, (c == 'x') = false) (hpl : ∀ c ∈ l, (c == '+') = false)
    (hsh : ∀ c ∈ l, (c == '#') = false)
    (hQ : hasPair '=' 'Q' l = false) (hR : hasPair '=' 'R' l = false)
    (hB : hasPair '=' 'B' l = false) (hN : hasPair '=' 'N' l = false) :
    stripSymbols l = l := by
  unfold stripSymbols
  rw [stripChar_eq_self 'x' l hx, stripChar_eq_self '+' l hpl,
    stripChar_eq_self '#' l hsh, stripPair_eq_self _ _ _ hQ,
    stripPair_eq_self _ _ _ hR, stripPair_eq_self _ _ _ hB,
    stripPair_eq_self _ _ _ hN]

theorem parse_algebraic_not_coord (input : List Char) (hne : pyStrip input ≠ [])
    (hcf : coordForm (pyStrip input) = false) :
    parse_algebraic input =
      (match stripSymbols (pyStrip input) with
       | [] => ParseOutcome.crash
       | [f, r] =>
         if isFile f && isRank r then .parsed (some [f, startRank r, f, r])
         else .parsed (pieceMove [f, r])
       | l => .parsed (pieceMove l)) := by
  unfold parse_algebraic
  rw [if_neg hne, if_neg (by simp [hcf])]

/-! Claim theorems. -/

/-- C2: for every input string matching the coordinate form
[a-h][1-8][a-h][1-8], parse_algebraic returns the input unchanged. -/
theorem C2_coordinate_passthrough (a b c d : Char) (ha : isFile a = true)
    (hb : isRank b = true) (hc : isFile c = true) (hd : isRank d = true) :
    parse_algebraic [a, b, c, d] = .parsed (some [a, b, c, d]) := by
  have hstrip : pyStrip [a, b, c, d] = [a, b, c, d] := by
    unfold pyStrip
    rw [dropWhile_eq_self_of_head _ _ _ (isFile_facts a ha).1]
    have hrev : ([a, b, c, d] : List Char).reverse = [d, c, b, a] := by simp
    rw [hrev, dropWhile_eq_self_of_head _ _ _ (isRank_facts d hd).1]
    simp
  unfold parse_algebraic
  simp only [hstrip]
  rw [if_neg (by simp), if_pos (by simp [coordForm, ha, hb, hc])]

/-- C2 witness: the coordinate move e2e4 passes through unchanged. -/
theorem C2_coordinate_passthrough_witness :
    parse_algebraic (toChars "e2e4") = .parsed (some (toChars "e2e4")) :=
  C2_coordinate_passthrough 'e' '2' 'e' '4' (by decide) (by decide) (by decide)
    (by decide)

/-- C3: every input whose symbol-stripped form is a two-character pawn
destination square file--rank is expanded to file start-rank file rank,
with start rank 2 for destination rank 3 or 4, start rank 7 for 5 or 6,
and start rank 2 for any other destination rank. -/
theorem C3_pawn_destination (input : List Char) (f r : Char)
    (hf : isFile f = true) (hr : isRank r = true)
    (hstrip : stripSymbols (pyStrip input) = [f, r]) :
    parse_algebraic input =
      .parsed (some [f,
        if r == '3' || r == '4' then '2'
        else if r == '5' || r == '6' then '7' else '2',
        f, r]) := by
  have hne : pyStrip input ≠ [] := by
    intro h0
    rw [h0] at hstrip
    simp [stripSymbols, stripChar, stripPair] at hstrip
  have hcf : coordForm (pyStrip input) = false := by
    cases hcc : coordForm (pyStrip input) with
    | false => rfl
    | true =>
      exfalso
      have h3 := coordForm_countP _ hcc
      have hpres := countP_stripSymbols_good (pyStrip input)
      rw [hstrip] at hpres
      simp [List.countP_cons, goodChar, hf, hr] at hpres
      omega
  rw [parse_algebraic_not_coord input hne hcf, hstrip]
  simp [startRank, hf, hr]

/-- C3 witness: e4 expands to e2e4, e5 to e7e5 and d4 to d2d4. -/
theorem C3_pawn_destination_witness :
    parse_algebraic (toChars "e4") = .parsed (some (toChars "e2e4")) ∧
    parse_algebraic (toChars "e5") = .parsed (some (toChars "e7e5")) ∧
    parse_algebraic (toChars "d4") = .parsed (some (toChars "d2d4")) :=
  ⟨C3_pawn_destination (toChars "e4") 'e' '4' (by decide) (by decide) (by decide),
   C3_pawn_destination (toChars "e5") 'e' '5' (by decide) (by decide) (by decide),
   C3_pawn_destination (toChars "d4") 'd' '4' (by decide) (by decide) (by decide)⟩

theorem pieceMove_five (p s1 s2 d1 d2 : Char) (hp : isPieceLetter p = true)
    (h1 : isFile s1 = true) (h2 : isRank s2 = true) (h3 : isFile d1 = true)
    (h4 : isRank d2 = true) :
    pieceMove [p, s1, s2, d1, d2] = some [s1, s2, d1, d2] := by
  unfold pieceMove
  simp [hp, h1, h2, h3, h4]

theorem pieceMove_four (p c d1 d2 : Char) (hp : isPieceLetter p = true)
    (h3 : isFile d1 = true) (h4 : isRank d2 = true) :
    pieceMove [p, c, d1, d2] = none := by
  unfold pieceMove
  simp [hp, h3, h4]

theorem pieceMove_three (p d1 d2 : Char) (hp : isPieceLetter p = true)
    (h3 : isFile d1 = true) (h4 : isRank d2 = true) :
    pieceMove [p, d1, d2] = none := by
  unfold pieceMove
  simp [hp, h3, h4]

/-- C4 counterexample: the input b1c3 starts with a piece letter
(case-insensitively B), its last two characters c3 form a valid square,
and exactly one disambiguation character remains between them, so the
claim requires the result to be unparseable; but parse_algebraic returns
it through the coordinate-form passthrough. -/
theorem C4_counterexample :
    isPieceLetter 'b' = true ∧ isFile 'c' = true ∧ isRank '3' = true ∧
    parse_algebraic ['b', '1', 'c', '3'] = .parsed (some ['b', '1', 'c', '3']) := by
  decide

/-- C4 amended: for inputs consisting of a piece letter (K Q R B N,
case-insensitive), optional disambiguation characters, and a valid
destination square: with exactly two disambiguation characters forming a
valid square the result is source concatenated with destination; with
zero or one disambiguation character the result is unparseable, except
when the raw input already matches the coordinate passthrough form, in
which case it is returned unchanged by the earlier passthrough rule. -/
theorem C4_piece_disambiguation :
    (∀ p s1 s2 d1 d2 : Char, isPieceLetter p = true → isFile s1 = true →
      isRank s2 = true → isFile d1 = true → isRank d2 = true →
      parse_algebraic [p, s1, s2, d1, d2] = .parsed (some [s1, s2, d1, d2])) ∧
    (∀ p d1 d2 : Char, isPieceLetter p = true → isFile d1 = true →
      isRank d2 = true → parse_algebraic [p, d1, d2] = .parsed none) ∧
    (∀ p c d1 d2 : Char, isPieceLetter p = true → isFile d1 = true →
      isRank d2 = true → coordForm [p, c, d1, d2] = false →
      parse_algebraic [p, c, d1, d2] = .parsed none) := by
  refine ⟨?_, ?_, ?_⟩
  · intro p s1 s2 d1 d2 hp hs1 hs2 hd1 hd2
    obtain ⟨hpsp, hpx, hppl, hpsh, hpe⟩ := isPieceLetter_facts p hp
    obtain ⟨h1sp, h1x, h1pl, h1sh, h1e, h1Q, h1R, h1B, h1N, h1rk⟩ := isFile_facts s1 hs1
    obtain ⟨h2sp, h2x, h2pl, h2sh, h2e, h2Q, h2R, h2B, h2N, h2fl⟩ := isRank_facts s2 hs2
    obtain ⟨h3sp, h3x, h3pl, h3sh, h3e, h3Q, h3R, h3B, h3N, h3rk⟩ := isFile_facts d1 hd1
    obtain ⟨h4sp, h4x, h4pl, h4sh, h4e, h4Q, h4R, h4B, h4N, h4fl⟩ := isRank_facts d2 hd2
    have hstrip0 : pyStrip [p, s1, s2, d1, d2] = [p, s1, s2, d1, d2] := by
      unfold pyStrip
      rw [dropWhile_eq_self_of_head _ _ _ hpsp]
      have hrev : ([p, s1, s2, d1, d2] : List Char).reverse = [d2, d1, s2, s1, p] := by
        simp
      rw [hrev, dropWhile_eq_self_of_head _ _ _ h4sp]
      simp
    have hss : stripSymbols [p, s1, s2, d1, d2] = [p, s1, s2, d1, d2] := by
      apply stripSymbols_eq_self
      · intro x hx
        simp at hx
        rcases hx with rfl | rfl | rfl | rfl | rfl
        exacts [hpx, h1x, h2x, h3x, h4x]
      · intro x hx
        simp at hx
        rcases hx with rfl | rfl | rfl | rfl | rfl
        exacts [hppl, h1pl, h2pl, h3pl, h4pl]
      · intro x hx
        simp at hx
        rcases hx with rfl | rfl | rfl | rfl | rfl
        exacts [hpsh, h1sh, h2sh, h3sh, h4sh]
      · simp [hasPair, hpe, h1e, h2e, h3e]
      · simp [hasPair, hpe, h1e, h2e, h3e]
      · simp [hasPair, hpe, h1e, h2e, h3e]
      · simp [hasPair, hpe, h1e, h2e, h3e]
    rw [parse_algebraic_not_coord _ (by simp [hstrip0])
      (by rw [hstrip0]; simp [coordForm, h1rk]), hstrip0, hss]
    show ParseOutcome.parsed (pieceMove [p, s1, s2, d1, d2]) = _
    rw [pieceMove_five p s1 s2 d1 d2 hp hs1 hs2 hd1 hd2]
  · intro p d1 d2 hp hd1 hd2
    obtain ⟨hpsp, hpx, hppl, hpsh, hpe⟩ := isPieceLetter_facts p hp
    obtain ⟨h3sp, h3x, h3pl, h3sh, h3e, h3Q, h3R, h3B, h3N, h3rk⟩ := isFile_facts d1 hd1
    obtain ⟨h4sp, h4x, h4pl, h4sh, h4e, h4Q, h4R, h4B, h4N, h4fl⟩ := isRank_facts d2 hd2
    have hstrip0 : pyStrip [p, d1, d2] = [p, d1, d2] := by
      unfold pyStrip
      rw [dropWhile_eq_self_of_head _ _ _ hpsp]
      have hrev : ([p, d1, d2] : List Char).reverse = [d2, d1, p] := by simp
      rw [hrev, dropWhile_eq_self_of_head _ _ _ h4sp]
      simp
    have hss : stripSymbols [p, d1, d2] = [p, d1, d2] := by
      apply stripSymbols_eq_self
      · intro x hx
        simp at hx
        rcases hx with rfl | rfl | rfl
        exacts [hpx, h3x, h4x]
      · intro x hx
        simp at hx
        rcases hx with rfl | rfl | rfl
        exacts [hppl, h3pl, h4pl]
      · intro x hx
        simp at hx
        rcases hx with rfl | rfl | rfl
        exacts [hpsh, h3sh, h4sh]
      · simp [hasPair, hpe, h3e]
      · simp [hasPair, hpe, h3e]
      · simp [hasPair, hpe, h3e]
      · simp [hasPair, hpe, h3e]
    rw [parse_algebraic_not_coord _ (by simp [hstrip0])
      (by rw [hstrip0]; simp [coordForm]), hstrip0, hss]
    show ParseOutcome.parsed (pieceMove [p, d1, d2]) = _
    rw [pieceMove_three p d1 d2 hp hd1 hd2]
  · intro p c d1 d2 hp hd1 hd2 hcf
    obtain ⟨hpsp, hpx, hppl, hpsh, hpe⟩ := isPieceLetter_facts p hp
    obtain ⟨h3sp, h3x, h3pl, h3sh, h3e, h3Q, h3R, h3B, h3N, h3rk⟩ := isFile_facts d1 hd1
    obtain ⟨h4sp, h4x, h4pl, h4sh, h4e, h4Q, h4R, h4B, h4N, h4fl⟩ := isRank_facts d2 hd2
    have hstrip0 : pyStrip [p, c, d1, d2] = [p, c, d1, d2] := by
      unfold pyStrip
      rw [dropWhile_eq_self_of_head _ _ _ hpsp]
      have hrev : ([p, c, d1, d2] : List Char).reverse = [d2, d1, c, p] := by simp
      rw [hrev, dropWhile_eq_self_of_head _ _ _ h4sp]
      simp
    have hthree : ParseOutcome.parsed (pieceMove [p, d1, d2]) = .parsed none := by
      rw [pieceMove_three p d1 d2 hp hd1 hd2]
    by_cases hc1 : c = 'x'
    · subst hc1
      have hss : stripSymbols [p, 'x', d1, d2] = [p, d1, d2] := by
        unfold stripSymbols
        have hx1 : stripChar 'x' [p, 'x', d1, d2] = [p, d1, d2] := by
          simp [stripChar, List.filter_cons, hpx, h3x, h4x]
        rw [hx1]
        rw [stripChar_eq_self '+' _ (by
          intro x hx
          simp at hx
          rcases hx with rfl | rfl | rfl
          exacts [hppl, h3pl, h4pl])]
        rw [stripChar_eq_self '#' _ (by
          intro x hx
          simp at hx
          rcases hx with rfl | rfl | rfl
          exacts [hpsh, h3sh, h4sh])]
        rw [stripPair_eq_self '=' 'Q' [p, d1, d2] (by simp [hasPair, hpe, h3e]),
          stripPair_eq_self '=' 'R' [p, d1, d2] (by simp [hasPair, hpe, h3e]),
          stripPair_eq_self '=' 'B' [p, d1, d2] (by simp [hasPair, hpe, h3e]),
          stripPair_eq_self '=' 'N' [p, d1, d2] (by simp [hasPair, hpe, h3e])]
      rw [parse_algebraic_not_coord _ (by simp [hstrip0]) (by rw [hstrip0]; exact hcf),
        hstrip0, hss]
      exact hthree
    · by_cases hc2 : c = '+'
      · subst hc2
        have hss : stripSymbols [p, '+', d1, d2] = [p, d1, d2] := by
          unfold stripSymbols
          rw [stripChar_eq_self 'x' _ (by
            intro x hx
            simp at hx
            rcases hx with rfl | rfl | rfl | rfl
            exacts [hpx, by decide, h3x, h4x])]
          have hx1 : stripChar '+' [p, '+', d1, d2] = [p, d1, d2] := by
            simp [stripChar, List.filter_cons, hppl, h3pl, h4pl]
          rw [hx1]
          rw [stripChar_eq_self '#' _ (by
            intro x hx
            simp at hx
            rcases hx with rfl | rfl | rfl
            exacts [hpsh, h3sh, h4sh])]
          rw [stripPair_eq_self '=' 'Q' [p, d1, d2] (by simp [hasPair, hpe, h3e]),
            stripPair_eq_self '=' 'R' [p, d1, d2] (by simp [hasPair, hpe, h3e]),
            stripPair_eq_self '=' 'B' [p, d1, d2] (by simp [hasPair, hpe, h3e]),
            stripPair_eq_self '=' 'N' [p, d1, d2] (by simp [hasPair, hpe, h3e])]
        rw [parse_algebraic_not_coord _ (by simp [hstrip0]) (by rw [hstrip0]; exact hcf),
          hstrip0, hss]
        exact hthree
      · by_cases hc3 : c = '#'
        · subst hc3
          have hss : stripSymbols [p, '#', d1, d2] = [p, d1, d2] := by
            unfold stripSymbols
            rw [stripChar_eq_self 'x' _ (by
              intro x hx
              simp at hx
              rcases hx with rfl | rfl | rfl | rfl
              exacts [hpx, by decide, h3x, h4x])]
            rw [stripChar_eq_self '+' _ (by
              intro x hx
              simp at hx
              rcases hx with rfl | rfl | rfl | rfl
              exacts [hppl, by decide, h3pl, h4pl])]
            have hx1 : stripChar '#' [p, '#', d1, d2] = [p, d1, d2] := by
              simp [stripChar, List.filter_cons, hpsh, h3sh, h4sh]
            rw [hx1]
            rw [stripPair_eq_self '=' 'Q' [p, d1, d2] (by simp [hasPair, hpe, h3e]),
              stripPair_eq_self '=' 'R' [p, d1, d2] (by simp [hasPair, hpe, h3e]),
              stripPair_eq_self '=' 'B' [p, d1, d2] (by simp [hasPair, hpe, h3e]),
              stripPair_eq_self '=' 'N' [p, d1, d2] (by simp [hasPair, hpe, h3e])]
          rw [parse_algebraic_not_coord _ (by simp [hstrip0]) (by rw [hstrip0]; exact hcf),
            hstrip0, hss]
          exact hthree
        · have hcx : (c == 'x') = false := by simp [hc1]
          have hcpl : (c == '+') = false := by simp [hc2]
          have hcsh : (c == '#') = false := by simp [hc3]
          have hss : stripSymbols [p, c, d1, d2] = [p, c, d1, d2] := by
            apply stripSymbols_eq_self
            · intro x hx
              simp at hx
              rcases hx with rfl | rfl | rfl | rfl
              exacts [hpx, hcx, h3x, h4x]
            · intro x hx
              simp at hx
              rcases hx with rfl | rfl | rfl | rfl
              exacts [hppl, hcpl, h3pl, h4pl]
            · intro x hx
              simp at hx
              rcases hx with rfl | rfl | rfl | rfl
              exacts [hpsh, hcsh, h3sh, h4sh]
            · simp [hasPair, hpe, h3e, h3Q]
            · simp [hasPair, hpe, h3e, h3R]
            · simp [hasPair, hpe, h3e, h3B]
            · simp [hasPair, hpe, h3e, h3N]
          rw [parse_algebraic_not_coord _ (by simp [hstrip0])
            (by rw [hstrip0]; exact hcf), hstrip0, hss]
          show ParseOutcome.parsed (pieceMove [p, c, d1, d2]) = _
          rw [pieceMove_four p c d1 d2 hp hd1 hd2]

/-- C4 witness: Nb1d7 yields b1d7; Nc3 and Nbc3 are unparseable. -/
theorem C4_piece_disambiguation_witness :
    parse_algebraic (toChars "Nb1d7") = .parsed (some (toChars "b1d7")) ∧
    parse_algebraic (toChars "Nc3") = .parsed none ∧
    parse_algebraic (toChars "Nbc3") = .parsed none :=
  ⟨C4_piece_disambiguation.1 'N' 'b' '1' 'd' '7' (by decide) (by decide) (by decide)
      (by decide) (by decide),
   C4_piece_disambiguation.2.1 'N' 'c' '3' (by decide) (by decide) (by decide),
   C4_piece_disambiguation.2.2 'N' 'b' 'c' '3' (by decide) (by decide) (by decide)
      (by decide)⟩

/-- C5: a cell is colored dark exactly when file index plus rank number is
odd, with the file index taken in true board coordinates (7 minus the
displayed position when flipped); hence the cell rendered at displayed
position 7 - j under flip (which shows the piece of true file j for an
8-cell row, since the row is reversed) is identical to the cell rendered
at position j unflipped, and a1 (file 0, rank 1) is dark. -/
theorem C5_square_color_anchored :
    (∀ (flip : Bool) (j : Nat) (r : Int),
      square_dark flip j r =
        (((if flip then 7 - (j : Int) else (j : Int)) + r) % 2 == 1)) ∧
    (∀ (u c : Bool) (r : Int) (piece : List Char) (j : Nat), j < 8 →
      render_cell u c true r j piece = render_cell u c false r (7 - j) piece) ∧
    square_dark false 0 1 = true := by
  refine ⟨fun flip j r => rfl, ?_, by decide⟩
  intro u c r piece j hj
  have h7 : ((7 - j : Nat) : Int) = 7 - (j : Int) := by
    rw [Nat.cast_sub (by omega)]
    norm_num
  have hsd : square_dark true j r = square_dark false (7 - j) r := by
    unfold square_dark
    simp [h7]
  unfold render_cell
  rw [hsd]

/-- C5 witness: displayed position 5 under flip gets the same cell as
displayed position 2 unflipped, and a1 is dark. -/
theorem C5_square_color_anchored_witness :
    render_cell true true true 5 2 (toChars "p") =
      render_cell true true false 5 5 (toChars "p") ∧
    square_dark false 0 1 = true :=
  ⟨C5_square_color_anchored.2.1 true true 5 (toChars "p") 2 (by decide),
   C5_square_color_anchored.2.2⟩

/-- C6: a snapshot row whose whitespace split has fewer than 9 tokens is
emitted by the renderer unchanged, and such a row of the snapshot appears
verbatim among the rendered output lines; rendering is total, so it never
fails as a whole. -/
theorem C6_malformed_row_fallback :
    (∀ (u c f : Bool) (raw : List Char), (pySplit raw).length < 9 →
      render_row u c f raw = raw) ∧
    (∀ (ls : List (List Char)) (u c f : Bool) (raw : List Char),
      raw ∈ boardRowsOf ls f → (pySplit raw).length < 9 →
      raw ∈ render_board_lines ls u c f) := by
  have hrow : ∀ (u c f : Bool) (raw : List Char), (pySplit raw).length < 9 →
      render_row u c f raw = raw := by
    intro u c f raw h
    unfold render_row
    simp [h]
  refine ⟨hrow, ?_⟩
  intro ls u c f raw hmem h
  unfold render_board_lines
  apply List.mem_append_left
  have hmm := List.mem_map_of_mem (render_row u c f) hmem
  rw [hrow u c f raw h] at hmm
  exact hmm

/-- C6 witness: the malformed row hello is passed through raw and appears
verbatim in the rendered lines. -/
theorem C6_malformed_row_fallback_witness :
    render_row true true false (toChars "hello") = toChars "hello" ∧
    toChars "hello" ∈ render_board_lines [toChars "hello"] true true false :=
  ⟨C6_malformed_row_fallback.1 true true false (toChars "hello") (by decide),
   C6_malformed_row_fallback.2 [toChars "hello"] true true false (toChars "hello")
     (by decide) (by decide)⟩

/-- C7 counterexample: in plain mode (unicode and colorize off) the
renderer does not output the empty-square dot unchanged; a well-formed
rank row of dots renders with no dot at all. -/
theorem C7_counterexample :
    '.' ∈ toChars "1 . . . . . . . ." ∧
    '.' ∉ render_board [toChars "1 . . . . . . . ."] false false false := by
  decide

/-- C7 amended: in plain mode (unicode off, colorize off), each piece cell
of a well-formed rank row is the raw piece token between single spaces,
except the empty-square dot, which renders as a blank space; no color
styling is applied. -/
theorem C7_plain_mode_cells (raw rank : List Char) (pieces : List (List Char))
    (hsplit : pySplit raw = rank :: pieces) (hlen : 9 ≤ (pySplit raw).length) :
    render_row false false false raw =
      rank ++ [' '] ++
        (pieces.map (fun piece =>
          [' '] ++ (if piece = ['.'] then [' '] else piece) ++ [' '])).flatten := by
  have hcell : (fun ip : Nat × List Char =>
      render_cell false false false (pyInt rank) ip.1 ip.2) =
      (fun ip : Nat × List Char =>
        [' '] ++ (if ip.2 = ['.'] then [' '] else ip.2) ++ [' ']) := by
    funext ip
    unfold render_cell
    simp
  rw [hsplit] at hlen
  unfold render_row
  rw [hsplit, if_neg (by omega)]
  simp only [Bool.false_eq_true, if_false, hcell,
    enum_map_of_const_idx (fun piece : List Char =>
      [' '] ++ (if piece = ['.'] then [' '] else piece) ++ [' ']) pieces]

/-- C7 amended witness: a well-formed plain-mode row of dots renders as
blank cells. -/
theorem C7_plain_mode_cells_witness :
    render_row false false false (toChars "1 . . . . . . . .") =
      toChars "1" ++ [' '] ++
        (List.map (fun piece =>
            [' '] ++ (if piece = ['.'] then [' '] else piece) ++ [' '])
          [toChars ".", toChars ".", toChars ".", toChars ".", toChars ".",
           toChars ".", toChars ".", toChars "."]).flatten :=
  C7_plain_mode_cells (toChars "1 . . . . . . . .") (toChars "1")
    [toChars ".", toChars ".", toChars ".", toChars ".", toChars ".",
     toChars ".", toChars ".", toChars "."] (by decide) (by decide)

/-- A START line that stores a player color: the START prefix and at
least two whitespace-separated parts (client_local.py lines 177-181). -/
def assignsColor (line : List Char) : Bool :=
  (toChars "START ").isPrefixOf line && decide (2 ≤ (pySplit line).length)

theorem handleEvent_color (line : List Char) (st : ReaderState)
    (h : assignsColor line = false) :
    (handleEvent line st).2.player_color = st.player_color := by
  unfold assignsColor at h
  unfold handleEvent
  repeat' split
  all_goals simp_all
  all_goals rw [if_neg (by omega)]

theorem handleEvent_not_board (line : List Char) (st : ReaderState)
    (fl : Bool) (r : List Char) :
    (handleEvent line st).1 ≠ Output.board fl r := by
  unfold handleEvent
  repeat' split
  all_goals simp

theorem flipOf_none (st : ReaderState) (h : st.player_color = none) :
    flipOf st = false := by
  unfold flipOf
  rw [h]

theorem read_loop_no_flip :
    ∀ (n : Nat) (lines : List (List Char)) (st : ReaderState),
      lines.length ≤ n → st.player_color = none →
      (∀ l ∈ lines, assignsColor l = false) →
      (∀ (fl : Bool) (r : List Char),
          Output.board fl r ∈ (read_loop lines st).1 → fl = false) ∧
      (read_loop lines st).2.player_color = none := by
  intro n
  induction n with
  | zero =>
    intro lines st hlen hc _
    have hnil : lines = [] := List.eq_nil_of_length_eq_zero (Nat.le_zero.mp hlen)
    subst hnil
    rw [read_loop_nil]
    refine ⟨?_, hc⟩
    intro fl r hmem
    simp at hmem
  | succ n ih =>
    intro lines st hlen hc hns
    cases lines with
    | nil =>
      rw [read_loop_nil]
      refine ⟨?_, hc⟩
      intro fl r hmem
      simp at hmem
    | cons line rest =>
      by_cases hb : line = boardMarker
      · subst hb
        rw [read_loop_cons_marker]
        have hlen' : (rest.drop 9).length ≤ n := by
          simp only [List.length_drop]
          simp only [List.length_cons] at hlen
          omega
        have hst' : (storeBoard (rest.take 9) st).player_color = none := hc
        have hns' : ∀ l ∈ rest.drop 9, assignsColor l = false := fun l hl =>
          hns l (List.mem_cons_of_mem _ (List.mem_of_mem_drop hl))
        obtain ⟨ihm, ihc⟩ := ih (rest.drop 9) (storeBoard (rest.take 9) st) hlen' hst' hns'
        refine ⟨?_, ihc⟩
        intro fl r hmem
        simp only [List.mem_cons] at hmem
        rcases hmem with heq | hmem
        · have hfl : fl = flipOf st := by
            injection heq
          rw [hfl, flipOf_none st hc]
        · exact ihm fl r hmem
      · rw [read_loop_cons_event line rest st hb]
        have hc' : (handleEvent line st).2.player_color = none := by
          rw [handleEvent_color line st (hns line (List.mem_cons_self _ _))]
          exact hc
        have hlen' : rest.length ≤ n := by
          simp only [List.length_cons] at hlen
          omega
        have hns' : ∀ l ∈ rest, assignsColor l = false := fun l hl =>
          hns l (List.mem_cons_of_mem _ hl)
        obtain ⟨ihm, ihc⟩ := ih rest (handleEvent line st).2 hlen' hc' hns'
        refine ⟨?_, ihc⟩
        intro fl r hmem
        simp only [List.mem_cons] at hmem
        rcases hmem with heq | hmem
        · exact absurd heq.symm (handleEvent_not_board line st fl r)
        · exact ihm fl r hmem

/-- The lines of one well-formed board frame used for concrete checks:
eight rank rows and the file-label row of the starting position. -/
def demoLines9 : List (List Char) :=
  [toChars "8 r n b q k b n r", toChars "7 p p p p p p p p",
   toChars "6 . . . . . . . .", toChars "5 . . . . . . . .",
   toChars "4 . . . . . . . .", toChars "3 . . . . . . . .",
   toChars "2 P P P P P P P P", toChars "1 R N B Q K B N R",
   toChars "  a b c d e f g h"]

/-- Nine frame lines that look like other protocol events, used to check
that frame buffering ignores their content. -/
def demoTrickFrame : List (List Char) :=
  [toChars "ERROR not a real error", toChars "START BLACK trick",
   toChars "QUEUE waiting", toChars "8 r n b q k b n r",
   toChars "7 p p p p p p p p", toChars "YOURMOVE", toChars "ROOM key",
   toChars "END over", toChars "  a b c d e f g h"]

/-- C1: on reading the board-frame marker in the idle state, the reader
buffers exactly the next nine stream lines as the snapshot regardless of
their content — they are consumed into the frame rather than dispatched
as events, and event processing resumes only with the remaining stream;
if the stream ends before nine lines arrive, the reader stops buffering
early without crashing, renders what arrived, and immediately emits the
disconnect notice and stops, so the partial render is never followed by
further protocol activity. -/
theorem C1_board_frame_buffering :
    (∀ (l9 rest : List (List Char)) (st : ReaderState), l9.length = 9 →
      read_loop (boardMarker :: (l9 ++ rest)) st =
        (Output.board (flipOf st) (frameRender l9 st) ::
           (read_loop rest (storeBoard l9 st)).1,
         (read_loop rest (storeBoard l9 st)).2)) ∧
    (∀ (l : List (List Char)) (st : ReaderState), l.length < 9 →
      read_loop (boardMarker :: l) st =
        ([Output.board (flipOf st) (frameRender l st), Output.connClosed],
         storeBoard l st)) :=
  ⟨read_loop_frame, read_loop_frame_short⟩

/-- C1 witness: a frame whose lines look like other events is buffered
whole, and a truncated one-line frame ends with the disconnect notice. -/
theorem C1_board_frame_buffering_witness :
    read_loop (boardMarker :: (demoTrickFrame ++ [toChars "YOURMOVE"])) initState =
      (Output.board (flipOf initState) (frameRender demoTrickFrame initState) ::
         (read_loop [toChars "YOURMOVE"] (storeBoard demoTrickFrame initState)).1,
       (read_loop [toChars "YOURMOVE"] (storeBoard demoTrickFrame initState)).2) ∧
    read_loop (boardMarker :: [toChars "8 r n b q k b n r"]) initState =
      ([Output.board (flipOf initState)
          (frameRender [toChars "8 r n b q k b n r"] initState),
        Output.connClosed],
       storeBoard [toChars "8 r n b q k b n r"] initState) :=
  ⟨C1_board_frame_buffering.1 demoTrickFrame [toChars "YOURMOVE"] initState (by decide),
   C1_board_frame_buffering.2 [toChars "8 r n b q k b n r"] initState (by decide)⟩

/-- C10: the state dict starts without a player color; as long as no
START line with at least two parts has assigned one, every board frame is
emitted with flip false (an unknown color is treated as the first side),
and the color entry stays absent. -/
theorem C10_no_flip_before_start (lines : List (List Char)) (st : ReaderState)
    (hc : st.player_color = none)
    (hns : ∀ l ∈ lines, assignsColor l = false) :
    initState.player_color = none ∧
    (∀ (fl : Bool) (r : List Char),
        Output.board fl r ∈ (read_loop lines st).1 → fl = false) ∧
    (read_loop lines st).2.player_color = none :=
  ⟨rfl,
   (read_loop_no_flip lines.length lines st le_rfl hc hns).1,
   (read_loop_no_flip lines.length lines st le_rfl hc hns).2⟩

/-- A START-free stream carrying one full board frame. -/
def demoNoStart : List (List Char) :=
  (toChars "hello" :: boardMarker :: demoLines9) ++ [toChars "YOURMOVE"]

/-- C10 witness: on a START-free stream from the initial state, no board
event with flip true is emitted. -/
theorem C10_no_flip_before_start_witness :
    Output.board true [] ∉ (read_loop demoNoStart initState).1 :=
  fun h =>
    Bool.noConfusion
      ((C10_no_flip_before_start demoNoStart initState rfl (by decide)).2.1
        true [] h)

/-- C8 counterexample: after a board frame is rendered in the default
colored mode, switching to ascii and then issuing redraw re-prints the
stored frame verbatim, and that frame still contains the escape character
of its color-control sequences; the claim that the reprinted text has no
color-control sequences fails. -/
theorem C8_counterexample :
    escChar ∈ frameRender demoLines9 initState ∧
    (handle_line (toChars "redraw")
        ((handle_line (toChars "ascii")
          ((read_loop (boardMarker :: demoLines9) initState).2)).2)).1 =
      .localPrint (some (frameRender demoLines9 initState)) := by
  have h1 : (read_loop (boardMarker :: demoLines9) initState).2 =
      storeBoard demoLines9 initState := by
    rw [show boardMarker :: demoLines9 = boardMarker :: (demoLines9 ++ []) by simp]
    rw [read_loop_frame demoLines9 [] initState (by decide), read_loop_nil]
  constructor
  · show escChar ∈ render_board demoLines9 true true false
    unfold render_board
    apply mem_intercalate_of_mem escChar ['\n'] _
      (render_row true true false (toChars "8 r n b q k b n r"))
    · unfold render_board_lines
      apply List.mem_append_left
      exact List.mem_map_of_mem _ (by decide)
    · decide
  · rw [h1]
    rfl

/-- C8 amended: redraw re-prints the stored last board verbatim, and the
ascii command itself re-prints it with the escape characters stripped;
the redraw output is escape-free when the stored frame was received after
the switch to ascii (it is then the raw lines joined by newlines, which
contain no escape character when the server lines contain none). -/
theorem C8_redraw_after_ascii (st0 : ReaderState) (bl : List (List Char))
    (h9 : bl.length = 9) (hesc : ∀ l ∈ bl, escChar ∉ l) :
    (handle_line (toChars "redraw") st0).1 = .localPrint st0.last_board ∧
    (handle_line (toChars "ascii") st0).1 =
      .localPrint (st0.last_board.map stripEscChars) ∧
    (handle_line (toChars "redraw")
        (read_loop (boardMarker :: bl)
          ((handle_line (toChars "ascii") st0).2)).2).1 =
      .localPrint (some (List.intercalate ['\n'] bl)) ∧
    escChar ∉ List.intercalate ['\n'] bl := by
  refine ⟨rfl, rfl, ?_, not_mem_intercalate escChar ['\n'] bl (by decide) hesc⟩
  have h1 : (read_loop (boardMarker :: bl) ((handle_line (toChars "ascii") st0).2)).2 =
      storeBoard bl ((handle_line (toChars "ascii") st0).2) := by
    rw [show boardMarker :: bl = boardMarker :: (bl ++ []) by simp]
    rw [read_loop_frame bl [] _ h9, read_loop_nil]
  rw [h1]
  rfl

/-- C8 amended witness: starting from a state holding a colored frame,
the switch to ascii plus a fresh frame plus redraw prints the raw lines
with no escape character. -/
theorem C8_redraw_after_ascii_witness :
    (handle_line (toChars "redraw") (storeBoard demoLines9 initState)).1 =
      .localPrint (storeBoard demoLines9 initState).last_board ∧
    (handle_line (toChars "ascii") (storeBoard demoLines9 initState)).1 =
      .localPrint ((storeBoard demoLines9 initState).last_board.map stripEscChars) ∧
    (handle_line (toChars "redraw")
        (read_loop (boardMarker :: demoLines9)
          ((handle_line (toChars "ascii") (storeBoard demoLines9 initState)).2)).2).1 =
      .localPrint (some (List.intercalate ['\n'] demoLines9)) ∧
    escChar ∉ List.intercalate ['\n'] demoLines9 :=
  C8_redraw_after_ascii (storeBoard demoLines9 initState) demoLines9
    (by decide) (by decide)

/-- C9 counterexample: the non-empty non-command input zzz is reported
unparseable by the normalizer and does not superficially resemble a move
attempt, yet the interactive loop still forwards it to the server as-is
instead of ignoring it. -/
theorem C9_counterexample :
    parse_algebraic (toChars "zzz") = .parsed none ∧
    moveLike (toChars "zzz") = false ∧
    handle_line (toChars "zzz") initState =
      (.send (toChars "zzz") false, initState) := by
  decide

/-- C9 amended: every non-empty input line that is not a local command
and that the normalizer reports unparseable is always forwarded to the
server unchanged; the hint is shown exactly when the text superficially
resembles a move attempt (contains a file letter a-h or a digit 1-8),
otherwise the line is forwarded silently. -/
theorem C9_unparseable_forwarding (line : List Char) (st : ReaderState)
    (h1 : pyLower line ≠ toChars "quit") (h2 : pyLower line ≠ toChars "exit")
    (h3 : pyLower line ≠ toChars "ff") (h4 : pyLower line ≠ toChars "forfeit")
    (h5 : pyLower line ≠ toChars "ascii") (h6 : pyLower line ≠ toChars "unicode")
    (h7 : pyLower line ≠ toChars "redraw")
    (h8 : (toChars "MOVE ").isPrefixOf (pyUpper line) = false)
    (h9 : (toChars "NAME ").isPrefixOf (pyUpper line) = false)
    (h10 : pyUpper line ≠ toChars "FF")
    (hp : parse_algebraic line = .parsed none) :
    handle_line line st = (.send line (moveLike line), st) := by
  simp only [handle_line, moveSection]
  rw [if_neg (by simp [h1, h2]), if_neg (by simp [h3, h4]), if_neg h5, if_neg h6,
    if_neg h7, if_neg (by simp [h8, h9, h10]), hp]

/-- C9 amended witness: hello is unparseable, resembles a move attempt
(it contains file letters), and is forwarded as-is with the hint. -/
theorem C9_unparseable_forwarding_witness :
    handle_line (toChars "hello") initState =
      (.send (toChars "hello") (moveLike (toChars "hello")), initState) :=
  C9_unparseable_forwarding (toChars "hello") initState (by decide) (by decide)
    (by decide) (by decide) (by decide) (by decide) (by decide) (by decide)
    (by decide) (by decide) (by decide)

end Chess
